import Mathlib

/-!
Verification of the Unified Error Management System core: the policy
registry and its lookup/fallback rule, the normalizer, the handler facade,
the retry/backoff controller and the global listener manager.

The repository ships only the barrel export `src/index.ts` and the
`README.md`; the modules it re-exports (`core/registry`, `core/handler`,
`utils/utils`, `hooks/Hook`) are not present.  The registry table and the
severity-to-log-level mapping are taken from the tables in `README.md`;
the remaining behaviour is modelled from the specification, as noted on
each definition.
-/

namespace UnifiedError

/-- Error categories.  The closed enumeration from the README mapping
table (the README uses CONVEX where the spec calls it DATA-LAYER). -/
inductive ErrorCategory where
  | NETWORK
  | AUTH
  | VALIDATION
  | STREAM
  | CONVEX
  | UNKNOWN
deriving DecidableEq, Repr

/-- Severities, ordered INFO < WARNING < ERROR < CRITICAL. -/
inductive ErrorSeverity where
  | INFO
  | WARNING
  | ERROR
  | CRITICAL
deriving DecidableEq, Repr

/-- UI presentation states. -/
inductive ErrorUIState where
  | INLINE
  | TOAST
  | MODAL
  | FULL_PAGE
deriving DecidableEq, Repr

/-- A static registry entry: classification and display policy for one
error code. -/
structure ErrorRegistryEntry where
  category : ErrorCategory
  severity : ErrorSeverity
  uiState : ErrorUIState
  retryable : Bool
  userMessage : String
deriving DecidableEq, Repr

/-- Modelled from the spec: `core/registry.ts` is missing from the
repository; the table contents are transcribed row by row from the
"Error Type to UI State Mapping" table in `README.md` (codes, categories,
severities, UI states and retry flags). -/
def ERROR_REGISTRY : List (String × ErrorRegistryEntry) :=
  [ ("NETWORK_TIMEOUT",
      ⟨ErrorCategory.NETWORK, ErrorSeverity.WARNING, ErrorUIState.INLINE, true,
        "The request timed out. Please try again."⟩),
    ("NETWORK_OFFLINE",
      ⟨ErrorCategory.NETWORK, ErrorSeverity.ERROR, ErrorUIState.FULL_PAGE, true,
        "You appear to be offline. Check your connection and retry."⟩),
    ("NETWORK_SERVER_ERROR",
      ⟨ErrorCategory.NETWORK, ErrorSeverity.ERROR, ErrorUIState.FULL_PAGE, true,
        "The server returned an error. Please try again."⟩),
    ("AUTH_UNAUTHORIZED",
      ⟨ErrorCategory.AUTH, ErrorSeverity.ERROR, ErrorUIState.FULL_PAGE, false,
        "Please sign in to continue."⟩),
    ("AUTH_FORBIDDEN",
      ⟨ErrorCategory.AUTH, ErrorSeverity.ERROR, ErrorUIState.FULL_PAGE, false,
        "You do not have access to this resource. Contact support."⟩),
    ("AUTH_SESSION_EXPIRED",
      ⟨ErrorCategory.AUTH, ErrorSeverity.WARNING, ErrorUIState.MODAL, true,
        "Your session has expired. Please sign in again."⟩),
    ("VALIDATION_REQUIRED",
      ⟨ErrorCategory.VALIDATION, ErrorSeverity.INFO, ErrorUIState.INLINE, true,
        "Please fill in the required fields."⟩),
    ("STREAM_CONN_FAILED",
      ⟨ErrorCategory.STREAM, ErrorSeverity.ERROR, ErrorUIState.FULL_PAGE, true,
        "The stream connection failed. Retry the connection."⟩),
    ("STREAM_PERM_DENIED",
      ⟨ErrorCategory.STREAM, ErrorSeverity.ERROR, ErrorUIState.MODAL, false,
        "Stream permissions were denied. Enable permissions to continue."⟩),
    ("CONVEX_MUTATION",
      ⟨ErrorCategory.CONVEX, ErrorSeverity.ERROR, ErrorUIState.TOAST, true,
        "The operation failed. Retrying automatically."⟩),
    ("UNKNOWN_ERROR",
      ⟨ErrorCategory.UNKNOWN, ErrorSeverity.ERROR, ErrorUIState.FULL_PAGE, true,
        "Something went wrong. Please try again or report the problem."⟩) ]

/-- The designated fallback entry: the UNKNOWN_ERROR row of the README
mapping table (category UNKNOWN, severity ERROR, full page, retryable). -/
def FALLBACK_ENTRY : ErrorRegistryEntry :=
  ⟨ErrorCategory.UNKNOWN, ErrorSeverity.ERROR, ErrorUIState.FULL_PAGE, true,
    "Something went wrong. Please try again or report the problem."⟩

/-- Whether a code has an exact-match entry in the registry. -/
def hasCode (code : String) : Bool :=
  (ERROR_REGISTRY.find? (fun p => p.1 == code)).isSome

/-- Modelled from the spec: registry lookup.  Exact-match lookup against
the static table; on miss, returns the designated fallback entry, so it
never fails. -/
def lookup (code : String) : ErrorRegistryEntry :=
  match ERROR_REGISTRY.find? (fun p => p.1 == code) with
  | some p => p.2
  | none => FALLBACK_ENTRY

theorem lookup_of_not_hasCode (c : String) (h : hasCode c = false) :
    lookup c = FALLBACK_ENTRY := by
  unfold lookup
  unfold hasCode at h
  cases hf : ERROR_REGISTRY.find? (fun p => p.1 == c) with
  | none => rfl
  | some p => rw [hf] at h; simp at h

/-- C1: for every code with no exact-match entry, lookup returns the
fallback entry, whose category is UNKNOWN, whose severity is ERROR (the
severity the README mapping table assigns to UNKNOWN_ERROR), and whose
retryable flag is true. -/
theorem lookup_fallback (c : String) (h : hasCode c = false) :
    lookup c = FALLBACK_ENTRY ∧
    FALLBACK_ENTRY.category = ErrorCategory.UNKNOWN ∧
    FALLBACK_ENTRY.severity = ErrorSeverity.ERROR ∧
    FALLBACK_ENTRY.retryable = true :=
  ⟨lookup_of_not_hasCode c h, rfl, rfl, rfl⟩

/-- C1 witness: the fallback behaviour at the concrete missing code
"NO_SUCH_CODE". -/
theorem lookup_fallback_witness :
    hasCode "NO_SUCH_CODE" = false ∧
    lookup "NO_SUCH_CODE" = FALLBACK_ENTRY ∧
    FALLBACK_ENTRY.severity = ErrorSeverity.ERROR :=
  ⟨by decide, (lookup_fallback "NO_SUCH_CODE" (by decide)).1,
    (lookup_fallback "NO_SUCH_CODE" (by decide)).2.2.1⟩

/-- C1 counterexample: the claim asserts the fallback severity is
CRITICAL, but at the missing code "TOTALLY_MISSING" the returned entry
has severity ERROR, as the README table specifies for UNKNOWN_ERROR. -/
theorem lookup_fallback_cex :
    hasCode "TOTALLY_MISSING" = false ∧
    ¬ (lookup "TOTALLY_MISSING").severity = ErrorSeverity.CRITICAL := by
  refine ⟨by decide, ?_⟩
  decide

/-- The canonical error record.  The classification fields are optional
at the type level, mirroring the dynamically-typed source where a field
may be absent on an arbitrary value; the normalizer guarantees they are
populated.  `originalError` keeps a rendered reference to the raw
failure for forensic logging. -/
structure AppError where
  code : Option String
  category : Option ErrorCategory
  severity : Option ErrorSeverity
  message : String
  userMessage : String
  timestamp : Option Nat
  metadata : List (String × String)
  originalError : Option String
  uiState : Option ErrorUIState
  retryable : Option Bool
deriving DecidableEq, Repr

/-- A raised value, as a tagged union over the heterogeneous raw failure
shapes the spec lists: an already-canonical record, a value exposing a
recognizable structured shape (own code/category), a native exception,
a bare string, a number, or undefined. -/
inductive RawFailure where
  | canonical (record : AppError)
  | structured (code : String) (category : ErrorCategory) (message : String)
  | exception (name : String) (message : String)
  | str (s : String)
  | num (n : Int)
  | undef
deriving DecidableEq, Repr

/-- First-match lookup in a metadata association list. -/
def metaLookup : List (String × String) → String → Option String
  | [], _ => none
  | p :: rest, k => if p.1 == k then some p.2 else metaLookup rest k

/-- Modelled from the spec: merging caller-supplied context into existing
metadata, caller-supplied keys winning on conflict (the semantics of an
object spread that writes the context last). -/
def mergeMeta (old new : List (String × String)) : List (String × String) :=
  old.filter (fun p => !(new.any (fun q => q.1 == p.1))) ++ new

/-- A code carried by a recognizably structured failure, if any. -/
def inferredCode : RawFailure → Option String
  | .structured c _ _ => some c
  | _ => none

/-- A category carried by a recognizably structured failure, if any. -/
def inferredCategory : RawFailure → Option ErrorCategory
  | .structured _ cat _ => some cat
  | _ => none

/-- Modelled from the spec: the network-style heuristic — connectivity
or timeout signals are recognized by their exception name. -/
def isNetworkStyle : RawFailure → Bool
  | .exception name _ =>
      name == "TimeoutSignal" || name == "TimeoutError" || name == "NetworkError"
  | _ => false

/-- A developer-facing message derived from the original failure. -/
def failureMessage : RawFailure → String
  | .canonical r => r.message
  | .structured _ _ m => m
  | .exception _ m => m
  | .str s => s
  | .num n => toString n
  | .undef => "Unknown error"

/-- The capability check: does this record expose the canonical shape
(code, category, severity and timestamp all present)? -/
def isCanonicalRecord (r : AppError) : Bool :=
  r.code.isSome && r.category.isSome && r.severity.isSome && r.timestamp.isSome

/-- The code a fresh normalization resolves: the explicit code if
supplied, else a code inferred from the failure, else the fallback
code. -/
def resolvedCode (f : RawFailure) (explicitCode : Option String) : String :=
  match explicitCode with
  | some c => c
  | none =>
    match inferredCode f with
    | some c => c
    | none => "UNKNOWN_ERROR"

/-- The category a fresh normalization resolves: extracted from a
structured failure if present, else NETWORK for network-style failures,
else the registry category of the resolved code (UNKNOWN for the
fallback code). -/
def resolvedCategory (f : RawFailure) (code : String) : ErrorCategory :=
  match inferredCategory f with
  | some cat => cat
  | none => if isNetworkStyle f then ErrorCategory.NETWORK else (lookup code).category

/-- Modelled from the spec: building a fresh canonical record from a
non-canonical raw failure — resolve the code, look up its policy, stamp
the timestamp and retain the original failure. -/
def normalizeFresh (f : RawFailure) (explicitCode : Option String)
    (context : List (String × String)) (now : Nat) : AppError :=
  let code := resolvedCode f explicitCode
  let entry := lookup code
  { code := some code
    category := some (resolvedCategory f code)
    severity := some entry.severity
    message := failureMessage f
    userMessage := entry.userMessage
    timestamp := some now
    metadata := context
    originalError := some (failureMessage f)
    uiState := some entry.uiState
    retryable := some entry.retryable }

/-- Modelled from the spec: `normalize(rawFailure, explicitCode?,
context?)` — `utils.ts` is missing from the repository.  An
already-canonical record passes through with the extra context merged
into its metadata (caller keys win); any other value is classified
fresh, degrading to UNKNOWN rather than failing.  The creation instant
is passed explicitly as `now`. -/
def normalize (f : RawFailure) (explicitCode : Option String)
    (context : List (String × String)) (now : Nat) : AppError :=
  match f with
  | .canonical r =>
    if isCanonicalRecord r then { r with metadata := mergeMeta r.metadata context }
    else normalizeFresh f explicitCode context now
  | _ => normalizeFresh f explicitCode context now

theorem normalize_wellformed (f : RawFailure) (c : Option String)
    (ctx : List (String × String)) (t : Nat) :
    isCanonicalRecord (normalize f c ctx t) = true := by
  cases f with
  | canonical r =>
    by_cases h : isCanonicalRecord r = true
    · simp only [normalize, h, if_true]
      exact h
    · simp only [normalize, h, if_false, Bool.not_eq_true] at *
      simp only [h, Bool.false_eq_true, if_false]
      rfl
  | structured code cat msg => rfl
  | exception name msg => rfl
  | str s => rfl
  | num n => rfl
  | undef => rfl

/-- C2: for every raw failure, including non-object values (a bare
string, a number, undefined), normalization yields a record whose code,
category, severity and timestamp are all populated; `normalize` is a
total function, so it never raises a secondary failure. -/
theorem normalize_total (f : RawFailure) (c : Option String)
    (ctx : List (String × String)) (t : Nat) :
    (normalize f c ctx t).code.isSome = true ∧
    (normalize f c ctx t).category.isSome = true ∧
    (normalize f c ctx t).severity.isSome = true ∧
    (normalize f c ctx t).timestamp.isSome = true := by
  have h := normalize_wellformed f c ctx t
  unfold isCanonicalRecord at h
  simp only [Bool.and_eq_true] at h
  exact ⟨h.1.1.1, h.1.1.2, h.1.2, h.2⟩

theorem normalize_canonical_passthrough (r : AppError) (c : Option String)
    (ctx : List (String × String)) (t : Nat) (h : isCanonicalRecord r = true) :
    normalize (RawFailure.canonical r) c ctx t =
      { r with metadata := mergeMeta r.metadata ctx } := by
  simp only [normalize, h, if_true]

theorem metaLookup_append (a b : List (String × String)) (k : String) :
    metaLookup (a ++ b) k =
      match metaLookup a k with
      | some v => some v
      | none => metaLookup b k := by
  induction a with
  | nil => rfl
  | cons p rest ih =>
    simp only [List.cons_append, metaLookup]
    by_cases hp : (p.1 == k) = true
    · simp [hp]
    · simp only [Bool.not_eq_true] at hp
      simp [hp, ih]

theorem metaLookup_eq_none_of_any_false (m : List (String × String)) (k : String)
    (h : m.any (fun q => q.1 == k) = false) : metaLookup m k = none := by
  induction m with
  | nil => rfl
  | cons p rest ih =>
    simp only [List.any_cons, Bool.or_eq_false_iff] at h
    simp only [metaLookup, h.1, Bool.false_eq_true, if_false]
    exact ih h.2

theorem mergeMeta_lookup (old new : List (String × String)) (k : String) :
    metaLookup (mergeMeta old new) k =
      if new.any (fun q => q.1 == k) = true then metaLookup new k
      else metaLookup old k := by
  induction old with
  | nil =>
    simp only [mergeMeta, List.filter_nil, List.nil_append]
    by_cases h : new.any (fun q => q.1 == k) = true
    · simp [h]
    · simp only [Bool.not_eq_true] at h
      simp [h, metaLookup_eq_none_of_any_false new k h, metaLookup]
  | cons p rest ih =>
    simp only [mergeMeta, List.filter_cons] at *
    by_cases hs : (new.any (fun q => q.1 == p.1)) = true
    · simp only [hs, Bool.not_true, Bool.false_eq_true, if_false]
      rw [ih]
      by_cases hp : (p.1 == k) = true
      · have hk : p.1 = k := by simpa using hp
        subst hk
        simp [metaLookup, hs]
      · simp only [Bool.not_eq_true] at hp
        simp [metaLookup, hp]
    · simp only [Bool.not_eq_true] at hs
      simp only [hs, Bool.not_false, if_true, List.cons_append]
      by_cases hp : (p.1 == k) = true
      · have hk : p.1 = k := by simpa using hp
        subst hk
        simp [metaLookup, hp, hs]
      · simp only [Bool.not_eq_true] at hp
        simp only [metaLookup, hp, Bool.false_eq_true, if_false]
        exact ih

/-- C9: normalization is idempotent — feeding the canonical record
produced by `normalize` back through `normalize` changes nothing except
merging the newly supplied context into the metadata; and in the merged
metadata caller-supplied keys win on conflict (a key present in the new
context resolves to the context value, otherwise to the old value). -/
theorem normalize_idempotent (f : RawFailure) (c c2 : Option String)
    (ctx ctx2 : List (String × String)) (t t2 : Nat) :
    normalize (RawFailure.canonical (normalize f c ctx t)) c2 ctx2 t2 =
      { normalize f c ctx t with
          metadata := mergeMeta (normalize f c ctx t).metadata ctx2 } ∧
    (∀ old new : List (String × String), ∀ k : String,
      metaLookup (mergeMeta old new) k =
        if new.any (fun q => q.1 == k) = true then metaLookup new k
        else metaLookup old k) :=
  ⟨normalize_canonical_passthrough (normalize f c ctx t) c2 ctx2 t2
      (normalize_wellformed f c ctx t),
    fun old new k => mergeMeta_lookup old new k⟩

/-- Developer-log levels: the two console methods the README severity
table routes to. -/
inductive LogLevel where
  | warn
  | error
deriving DecidableEq, Repr

/-- The severity-to-log-level mapping from the README "Severity Levels"
table: INFO, WARNING and ERROR all log via the warn-level method; only
CRITICAL logs via the error-level method. -/
def logLevelFor : ErrorSeverity → LogLevel
  | ErrorSeverity.INFO => LogLevel.warn
  | ErrorSeverity.WARNING => LogLevel.warn
  | ErrorSeverity.ERROR => LogLevel.warn
  | ErrorSeverity.CRITICAL => LogLevel.error

/-- One emitted developer-log call: the level used and the record
logged. -/
structure LogEvent where
  level : LogLevel
  record : AppError

/-- Process-wide handler configuration: the log toggle and the optional
external reporting callback (which may itself fail). -/
structure ErrorHandlerConfig where
  logErrors : Bool
  onError : Option (AppError → Except String Unit)

/-- Modelled from the spec: the handler attaches the resolved policy
fields (severity, uiState, retryable) onto the record, sourced from the
registry entry for its code rather than re-derived. -/
def attachPolicy (r : AppError) : AppError :=
  let entry := lookup (r.code.getD "UNKNOWN_ERROR")
  { r with
      severity := some entry.severity
      uiState := some entry.uiState
      retryable := some entry.retryable }

/-- What one `report` call produces: the returned record and the
developer-log calls it emitted. -/
structure ReportResult where
  record : AppError
  logs : List LogEvent

/-- The developer-log calls `report` emits for a resolved record: one
call at the severity-derived level when `logErrors` is set, none
otherwise. -/
def reportLogs (cfg : ErrorHandlerConfig) (r : AppError) : List LogEvent :=
  if cfg.logErrors then
    [⟨logLevelFor (r.severity.getD ErrorSeverity.CRITICAL), r⟩]
  else []

/-- Modelled from the spec: `errorHandler.report` — `core/handler.ts` is
missing from the repository.  Runs the normalizer, attaches the
registry policy, emits a developer log when `logErrors` is set, invokes
the configured `onError` callback and catches any failure the callback
raises, then returns the record.  The `Except` return type records that
a failure could in principle escape to the caller; the definition shows
it never does. -/
def report (cfg : ErrorHandlerConfig) (f : RawFailure) (explicitCode : Option String)
    (context : List (String × String)) (now : Nat) : Except String ReportResult :=
  match cfg.onError with
  | some cb =>
    match cb (attachPolicy (normalize f explicitCode context now)) with
    | Except.ok _ =>
      Except.ok ⟨attachPolicy (normalize f explicitCode context now),
        reportLogs cfg (attachPolicy (normalize f explicitCode context now))⟩
    | Except.error _ =>
      Except.ok ⟨attachPolicy (normalize f explicitCode context now),
        reportLogs cfg (attachPolicy (normalize f explicitCode context now))⟩
  | none =>
    Except.ok ⟨attachPolicy (normalize f explicitCode context now),
      reportLogs cfg (attachPolicy (normalize f explicitCode context now))⟩

theorem report_eq (cfg : ErrorHandlerConfig) (f : RawFailure) (c : Option String)
    (ctx : List (String × String)) (now : Nat) :
    report cfg f c ctx now =
      Except.ok
        ⟨attachPolicy (normalize f c ctx now),
          reportLogs cfg (attachPolicy (normalize f c ctx now))⟩ := by
  unfold report
  split <;> first | rfl | (split <;> rfl)

/-- C3: however the configured `onError` callback behaves — in
particular when it always throws — `report` still returns `ok` with the
fully resolved record for the primary failure; no failure escapes to
the caller of `report`. -/
theorem report_isolates_callback (lg : Bool) (cb : AppError → Except String Unit)
    (f : RawFailure) (c : Option String) (ctx : List (String × String)) (now : Nat) :
    ∃ res : ReportResult,
      report ⟨lg, some cb⟩ f c ctx now = Except.ok res ∧
      res.record = attachPolicy (normalize f c ctx now) ∧
      res.record.severity.isSome = true ∧
      res.record.uiState.isSome = true ∧
      res.record.retryable.isSome = true :=
  ⟨_, report_eq ⟨lg, some cb⟩ f c ctx now, rfl, rfl, rfl, rfl⟩

/-- C10: with `logErrors` set, `report` emits exactly one developer log
whose level is a function of the record's severity alone; INFO, WARNING
and ERROR all map to the warn-level method and only CRITICAL maps to
the error-level method. -/
theorem report_log_level (onErr : Option (AppError → Except String Unit))
    (f : RawFailure) (c : Option String) (ctx : List (String × String)) (now : Nat) :
    (∃ res : ReportResult, ∃ s : ErrorSeverity,
      report ⟨true, onErr⟩ f c ctx now = Except.ok res ∧
      res.record.severity = some s ∧
      res.logs = [⟨logLevelFor s, res.record⟩]) ∧
    logLevelFor ErrorSeverity.INFO = LogLevel.warn ∧
    logLevelFor ErrorSeverity.WARNING = LogLevel.warn ∧
    logLevelFor ErrorSeverity.ERROR = LogLevel.warn ∧
    (∀ s : ErrorSeverity,
      logLevelFor s = LogLevel.error ↔ s = ErrorSeverity.CRITICAL) := by
  refine ⟨⟨_, _, report_eq ⟨true, onErr⟩ f c ctx now, rfl, rfl⟩, rfl, rfl, rfl, ?_⟩
  intro s
  cases s <;> simp [logLevelFor]

/-- Per-operation retry state: the attempt count, the budget fixed at
construction, and the last computed backoff delay. -/
structure RetryState where
  attempt : Nat
  maxAttempts : Nat
  lastDelayMs : Nat
deriving DecidableEq, Repr

/-- A freshly constructed controller: attempt starts at 0. -/
def mkRetryState (maxAttempts : Nat) : RetryState :=
  ⟨0, maxAttempts, 0⟩

/-- READY iff the attempt count is still below the budget. -/
def canRetry (s : RetryState) : Bool :=
  s.attempt < s.maxAttempts

/-- Modelled from the spec: the backoff base, in milliseconds. -/
def BASE_DELAY_MS : Nat := 1000

/-- Modelled from the spec: the backoff upper bound, in milliseconds. -/
def MAX_DELAY_MS : Nat := 30000

/-- Exponential backoff: base times two to the attempt, capped at the
upper bound. -/
def nextDelayMs (s : RetryState) : Nat :=
  min (BASE_DELAY_MS * 2 ^ s.attempt) MAX_DELAY_MS

/-- `nextDelay()`: returns the computed delay and records it in
`lastDelayMs`. -/
def nextDelay (s : RetryState) : Nat × RetryState :=
  (nextDelayMs s, { s with lastDelayMs := nextDelayMs s })

/-- `reset()`: returns the attempt count to 0. -/
def reset (s : RetryState) : RetryState :=
  { s with attempt := 0 }

/-- The outcome of one `retry` call: the updated state, whether the
wrapped operation was invoked, and the operation result when it was. -/
structure RetryResult (α : Type) where
  state : RetryState
  invoked : Bool
  outcome : Option (Except String α)

/-- Modelled from the spec: `retry(operation)` — guarded by `canRetry`;
when EXHAUSTED it fails immediately without invoking the operation;
otherwise it increments `attempt` before awaiting the operation and
passes the operation outcome (success or failure) back to the
caller. -/
def retry {α : Type} (s : RetryState) (op : Except String α) : RetryResult α :=
  if canRetry s then
    { state := { s with attempt := s.attempt + 1 }, invoked := true, outcome := some op }
  else
    { state := s, invoked := false, outcome := none }

/-- The state after one `retry` call. -/
def retryStep {α : Type} (s : RetryState) (op : Except String α) : RetryState :=
  (retry s op).state

/-- The state after a sequence of `retry` calls. -/
def runRetries {α : Type} (s : RetryState) (ops : List (Except String α)) : RetryState :=
  ops.foldl retryStep s

theorem retryStep_maxAttempts {α : Type} (s : RetryState) (op : Except String α) :
    (retryStep s op).maxAttempts = s.maxAttempts := by
  unfold retryStep retry
  by_cases h : canRetry s = true
  · simp [h]
  · simp only [Bool.not_eq_true] at h
    simp [h]

theorem retryStep_bounded {α : Type} (s : RetryState) (op : Except String α)
    (h : s.attempt ≤ s.maxAttempts) : (retryStep s op).attempt ≤ s.maxAttempts := by
  unfold retryStep retry
  by_cases hc : canRetry s = true
  · simp only [hc, if_true]
    exact Nat.succ_le_of_lt (by simpa [canRetry] using hc)
  · simp only [Bool.not_eq_true] at hc
    simp only [hc, Bool.false_eq_true, if_false]
    exact h

theorem runRetries_bounded {α : Type} (ops : List (Except String α)) (s : RetryState)
    (h : s.attempt ≤ s.maxAttempts) :
    (runRetries s ops).attempt ≤ s.maxAttempts ∧
    (runRetries s ops).maxAttempts = s.maxAttempts := by
  induction ops generalizing s with
  | nil => exact ⟨h, rfl⟩
  | cons op rest ih =>
    have hstep := retryStep_bounded s op h
    have hmax := retryStep_maxAttempts s op
    have := ih (retryStep s op) (by rw [hmax]; exact hstep)
    simp only [runRetries, List.foldl_cons] at *
    exact ⟨by rw [← hmax]; exact this.1, by rw [this.2, hmax]⟩

/-- C4: with a budget of 3, the first three `retry` calls each find
`canRetry` true and invoke the wrapped operation, the fourth finds
`canRetry` false and does not invoke it, and after any sequence of
`retry` calls the attempt counter never exceeds the budget. -/
theorem retry_budget_three {α : Type} (a b c d : Except String α)
    (ops : List (Except String α)) :
    canRetry (mkRetryState 3) = true ∧
    (retry (mkRetryState 3) a).invoked = true ∧
    canRetry (retryStep (mkRetryState 3) a) = true ∧
    (retry (retryStep (mkRetryState 3) a) b).invoked = true ∧
    canRetry (retryStep (retryStep (mkRetryState 3) a) b) = true ∧
    (retry (retryStep (retryStep (mkRetryState 3) a) b) c).invoked = true ∧
    canRetry (retryStep (retryStep (retryStep (mkRetryState 3) a) b) c) = false ∧
    (retry (retryStep (retryStep (retryStep (mkRetryState 3) a) b) c) d).invoked = false ∧
    (retry (retryStep (retryStep (retryStep (mkRetryState 3) a) b) c) d).outcome = none ∧
    (runRetries (mkRetryState 3) ops).attempt ≤ 3 :=
  ⟨rfl, rfl, rfl, rfl, rfl, rfl, rfl, rfl, rfl,
    (runRetries_bounded ops (mkRetryState 3) (Nat.zero_le 3)).1⟩

/-- C5: the delay is computed as base times two to the attempt, capped
at the upper bound, and across any sequence of `retry` calls on the
same controller instance (no intervening reset) the value `nextDelay`
returns never decreases. -/
theorem backoff_monotone {α : Type} (s : RetryState) (ops : List (Except String α)) :
    (nextDelay s).1 = min (BASE_DELAY_MS * 2 ^ s.attempt) MAX_DELAY_MS ∧
    (nextDelay s).1 ≤ (nextDelay (runRetries s ops)).1 := by
  refine ⟨rfl, ?_⟩
  have hatt : s.attempt ≤ (runRetries s ops).attempt := by
    induction ops generalizing s with
    | nil => exact Nat.le_refl _
    | cons op rest ih =>
      have h1 : s.attempt ≤ (retryStep s op).attempt := by
        unfold retryStep retry
        by_cases hc : canRetry s = true
        · simp [hc, Nat.le_succ]
        · simp only [Bool.not_eq_true] at hc
          simp [hc]
      calc s.attempt ≤ (retryStep s op).attempt := h1
        _ ≤ (runRetries (retryStep s op) rest).attempt := ih (retryStep s op)
        _ = (runRetries s (op :: rest)).attempt := rfl
  show nextDelayMs s ≤ nextDelayMs (runRetries s ops)
  unfold nextDelayMs
  exact min_le_min
    (Nat.mul_le_mul_left BASE_DELAY_MS
      (Nat.pow_le_pow_right (by decide) hatt))
    (Nat.le_refl MAX_DELAY_MS)

/-- C6 counterexample: the claim says `reset()` unconditionally makes
`canRetry()` true, but on a controller constructed with a budget of 0,
`canRetry` is still false after `reset`. -/
theorem reset_zero_budget_cex :
    (reset (mkRetryState 0)).attempt = 0 ∧
    ¬ canRetry (reset (mkRetryState 0)) = true := by
  decide

/-- C6 (amended): `reset()` returns the attempt counter to 0 from any
state, and — whenever the construction-time budget is positive — makes
`canRetry()` return true regardless of prior exhaustion. -/
theorem reset_restores (s : RetryState) :
    (reset s).attempt = 0 ∧
    (0 < s.maxAttempts → canRetry (reset s) = true) := by
  refine ⟨rfl, fun h => ?_⟩
  simp [canRetry, reset, h]

/-- C6 witness: resetting an exhausted controller with budget 3. -/
theorem reset_restores_witness :
    (reset ⟨3, 3, 4000⟩).attempt = 0 ∧ canRetry (reset ⟨3, 3, 4000⟩) = true :=
  ⟨(reset_restores ⟨3, 3, 4000⟩).1, (reset_restores ⟨3, 3, 4000⟩).2 (by decide)⟩

/-- One step of a controller's lifetime: a `retry` call, a `reset`
call, or a `nextDelay` call. -/
inductive RetryAction (α : Type) where
  | doRetry (op : Except String α)
  | doReset
  | doDelay

/-- The state after one lifecycle action. -/
def runAction {α : Type} (s : RetryState) : RetryAction α → RetryState
  | .doRetry op => (retry s op).state
  | .doReset => reset s
  | .doDelay => (nextDelay s).2

/-- The state after a sequence of lifecycle actions. -/
def runActions {α : Type} (s : RetryState) (acts : List (RetryAction α)) : RetryState :=
  acts.foldl runAction s

theorem runAction_maxAttempts {α : Type} (s : RetryState) (a : RetryAction α) :
    (runAction s a).maxAttempts = s.maxAttempts := by
  cases a with
  | doRetry op =>
    show (retryStep s op).maxAttempts = s.maxAttempts
    exact retryStep_maxAttempts s op
  | doReset => rfl
  | doDelay => rfl

theorem canRetry_false_of_maxAttempts_zero (s : RetryState)
    (h : s.maxAttempts = 0) : canRetry s = false := by
  simp [canRetry, h]

theorem runActions_maxAttempts {α : Type} (acts : List (RetryAction α)) (s : RetryState) :
    (runActions s acts).maxAttempts = s.maxAttempts := by
  induction acts generalizing s with
  | nil => rfl
  | cons a rest ih =>
    show (runActions (runAction s a) rest).maxAttempts = s.maxAttempts
    rw [ih (runAction s a), runAction_maxAttempts]

/-- C7: on a controller constructed with a budget of 0, `canRetry` is
false at every point of its lifetime — after any sequence of retry,
reset and delay calls, including any number of resets. -/
theorem zero_budget_never_ready {α : Type} (acts : List (RetryAction α)) :
    canRetry (runActions (mkRetryState 0) acts) = false :=
  canRetry_false_of_maxAttempts_zero _
    (by rw [runActions_maxAttempts]; rfl)

/-- Process-wide listener-manager state: the attached/detached flag and
the number of handlers registered at each of the two global
interception points (unhandled-rejection and uncaught-exception). -/
structure ListenerState where
  attached : Bool
  rejectionHandlers : Nat
  exceptionHandlers : Nat
deriving DecidableEq, Repr

/-- The state at process start: detached, no handlers registered. -/
def initialListeners : ListenerState :=
  ⟨false, 0, 0⟩

/-- Modelled from the spec: `attach` — `hooks/Hook.ts` is missing from
the repository.  While already attached it is a no-op; otherwise it
registers exactly one handler at each of the two global interception
points and marks the state attached. -/
def attach (s : ListenerState) : ListenerState :=
  if s.attached then s
  else ⟨true, s.rejectionHandlers + 1, s.exceptionHandlers + 1⟩

/-- Modelled from the spec: `detach` — removes both handlers; while
already detached it is a no-op. -/
def detach (s : ListenerState) : ListenerState :=
  if s.attached then ⟨false, s.rejectionHandlers - 1, s.exceptionHandlers - 1⟩
  else s

/-- C8: attaching twice from the initial state leaves exactly one
registered handler per global interception point; a second `attach` is
always a no-op (attach is idempotent), and `detach` on an
already-detached state is a no-op. -/
theorem listener_idempotent (s : ListenerState) :
    (attach (attach initialListeners)).rejectionHandlers = 1 ∧
    (attach (attach initialListeners)).exceptionHandlers = 1 ∧
    attach (attach s) = attach s ∧
    (s.attached = false → detach s = s) := by
  refine ⟨rfl, rfl, ?_, fun h => ?_⟩
  · unfold attach
    by_cases h : s.attached = true
    · simp [h]
    · simp only [Bool.not_eq_true] at h
      simp [h]
  · simp [detach, h]

/-- C8 witness: the double attach and the no-op detach at the concrete
initial state. -/
theorem listener_idempotent_witness :
    (attach (attach initialListeners)).rejectionHandlers = 1 ∧
    attach (attach initialListeners) = attach initialListeners ∧
    detach initialListeners = initialListeners :=
  ⟨(listener_idempotent initialListeners).1,
    (listener_idempotent initialListeners).2.2.1,
    (listener_idempotent initialListeners).2.2.2 rfl⟩

end UnifiedError
